import Mathlib

/-!
Verification development for the video-upscaling worker (`handler.py`).

Filenames and probe output are modelled as `List Char`; Python string
operations (`strip`, `lower`, `replace`, `split`, `startswith`, `endswith`,
`%08d` formatting, `int`/`float` parsing of unsigned decimal literals) are
translated into executable functions on `List Char`.
-/

namespace Upscale

/-! ## Definitions -/

/-- Decimal digits with explicit fuel (any fuel at least `n` suffices). -/
def natDigitsAux : Nat → Nat → List Char
  | 0, n => [Char.ofNat (48 + n % 10)]
  | fuel + 1, n =>
    if n < 10 then [Char.ofNat (48 + n)]
    else natDigitsAux fuel (n / 10) ++ [Char.ofNat (48 + n % 10)]

/-- Python's `%d`: decimal digits of `n`, most significant first. -/
def natDigits (n : Nat) : List Char := natDigitsAux n n

/-- Numeric value of a digit character. -/
def charVal (c : Char) : Nat := c.toNat - 48

/-- Value of a digit string, most significant first (fold). -/
def digitsVal (s : List Char) : Nat :=
  s.foldl (fun acc c => 10 * acc + charVal c) 0

/-- Is `c` one of the characters `0`..`9`? -/
def isDigitChar (c : Char) : Bool := 48 ≤ c.toNat && c.toNat ≤ 57

/-- Python's `"%08d" % n`: left-pad the decimal digits with `'0'` to width 8. -/
def pad8 (n : Nat) : List Char :=
  List.replicate (8 - (natDigits n).length) (Char.ofNat 48) ++ natDigits n

/-- Python `s.replace(pat, rep)`, scanning left to right and replacing
non-overlapping occurrences.  The first argument counts characters still to
be skipped because they belong to an occurrence already replaced. -/
def replaceAllAux (pat rep : List Char) : Nat → List Char → List Char
  | _, [] => []
  | k + 1, _ :: rest => replaceAllAux pat rep k rest
  | 0, c :: rest =>
    if pat ≠ [] ∧ pat.isPrefixOf (c :: rest) then
      rep ++ replaceAllAux pat rep (pat.length - 1) rest
    else
      c :: replaceAllAux pat rep 0 rest

/-- Python `s.replace(pat, rep)` (for a non-empty `pat`, as used by the code). -/
def replaceAll (pat rep s : List Char) : List Char := replaceAllAux pat rep 0 s

/-- Python `s.startswith(p)`. -/
def pyStartsWith (p s : List Char) : Bool := p.isPrefixOf s

/-- Python `s.endswith(p)`. -/
def pyEndsWith (p s : List Char) : Bool := List.isSuffixOf p s

/-- Whitespace as stripped by Python's `str.strip` (ASCII whitespace —
space, tab, LF, VT, FF, CR; enough for the values at issue). -/
def isSpaceChar (c : Char) : Bool :=
  c.toNat = 32 || (9 ≤ c.toNat && c.toNat ≤ 13)

/-- Python `s.strip()`. -/
def pyStrip (s : List Char) : List Char :=
  ((s.dropWhile isSpaceChar).reverse.dropWhile isSpaceChar).reverse

/-- Python `s.lower()` (ASCII case folding; enough for the values at issue). -/
def pyLower (s : List Char) : List Char := s.map Char.toLower

def framePrefix : List Char := "frame_".data

def upscaledPrefix : List Char := "frames_upscaled_".data

def pngSuffix : List Char := ".png".data

def srcFileName : List Char := "src.mp4".data

/-- `frame_%08d.png` — name of an extracted frame. -/
def extractedName (i : Nat) : List Char := framePrefix ++ (pad8 i ++ pngSuffix)

/-- `frames_upscaled_%08d.png` — name written for an upscaled frame. -/
def upscaledName (i : Nat) : List Char := upscaledPrefix ++ (pad8 i ++ pngSuffix)

/-- The listing filter `f.startswith("frame_") and f.endswith(".png")`. -/
def isFrameFile (f : List Char) : Bool :=
  pyStartsWith framePrefix f && pyEndsWith pngSuffix f

/-- `fname.replace("frame_", "frames_upscaled_")`. -/
def upscaleOutName (f : List Char) : List Char :=
  replaceAll framePrefix upscaledPrefix f

/-- Python `sorted` on strings: lexicographic comparison of code points. -/
def lexLe : List Char → List Char → Bool
  | [], _ => true
  | _ :: _, [] => false
  | a :: as, b :: bs =>
    if a.toNat < b.toNat then true
    else if b.toNat < a.toNat then false
    else lexLe as bs

/-- The output names written by `upscale_frames_cuda` given the work
directory's listing: sort it, filter to frame files, rename each. -/
def upscaleOutputs (listing : List (List Char)) : List (List Char) :=
  ((listing.mergeSort lexLe).filter isFrameFile).map upscaleOutName

/-- The work directory's listing when `upscale_frames_cuda` runs: the source
copy `src.mp4` plus one extracted frame per index. -/
def workListing (ixs : List Nat) : List (List Char) :=
  srcFileName :: ixs.map extractedName

/-- The named-preset table from `handler.py`. -/
def TARGET_RESOLUTION_SCALE : List (List Char × ℚ) :=
  [("1080p".data, 3/2), ("2k".data, 2), ("1440p".data, 2)]

def DEFAULT_SCALE : ℚ := 3/2

/-- `(target_resolution or "").strip().lower().replace(" ", "")`. -/
def normalizeKey (tr : List Char) : List Char :=
  replaceAll " ".data [] (pyLower (pyStrip tr))

/-- The body of `resolve_scale` after the explicit-scale check: named preset
lookup, the redundant literal comparisons, then the default. -/
def resolveFromTarget : Option (List Char) → ℚ
  | some t =>
    if t ≠ [] then
      match List.lookup (normalizeKey t) TARGET_RESOLUTION_SCALE with
      | some v => v
      | none =>
        if normalizeKey t = "2k".data ∨ normalizeKey t = "1440p".data then 2
        else if normalizeKey t = "1080p".data then 3/2
        else DEFAULT_SCALE
    else DEFAULT_SCALE
  | none => DEFAULT_SCALE

/-- `resolve_scale(scale, target_resolution)`: an explicit positive scale
wins; otherwise the target-resolution branch; floats modelled as rationals. -/
def resolve_scale (scale : Option ℚ) (target_resolution : Option (List Char)) : ℚ :=
  match scale with
  | some s => if 0 < s then s else resolveFromTarget target_resolution
  | none => resolveFromTarget target_resolution

/-- Python `s.split(sep)` for a one-character separator. -/
def pySplit (sep : Char) : List Char → List (List Char)
  | [] => [[]]
  | c :: rest =>
    let r := pySplit sep rest
    if c = sep then [] :: r
    else
      match r with
      | [] => [[c]]
      | h :: t => (c :: h) :: t

/-- Python `int(s)` / `float(s)` restricted to unsigned decimal literals —
the only shape `ffprobe` emits for these queries; anything else raises,
modelled as `none`. -/
def parseDec (s : List Char) : Option Nat :=
  if s ≠ [] ∧ s.all isDigitChar then some (digitsVal s) else none

/-- The `try` body of `get_video_fps`: the probe's stdout when `ffprobe`
exited 0, `none` when `check_output` raised.  Every step that can raise
(`check_output`, tuple unpacking of `split`, `float()`, division by zero)
throws; floats are modelled as rationals. -/
def getVideoFpsBody (probe : Option (List Char)) : Except Unit ℚ := do
  let out ← match probe with
    | some o => pure o
    | none => Except.error ()
  let parts := pySplit (Char.ofNat 47) (pyStrip out)
  let nd ← match parts with
    | [a, b] => pure (a, b)
    | _ => Except.error ()
  if nd.2 = "0".data then
    pure 30
  else
    let num ← match parseDec nd.1 with
      | some v => pure v
      | none => Except.error ()
    let den ← match parseDec nd.2 with
      | some v => pure v
      | none => Except.error ()
    if den = 0 then Except.error ()
    else pure ((num : ℚ) / (den : ℚ))

/-- `get_video_fps`: the `except Exception: return 30.0` wrapper. -/
def get_video_fps (probe : Option (List Char)) : ℚ :=
  match getVideoFpsBody probe with
  | .ok v => v
  | .error _ => 30

/-- The `try` body of `get_video_size`. -/
def getVideoSizeBody (probe : Option (List Char)) : Except Unit (Nat × Nat) := do
  let out ← match probe with
    | some o => pure o
    | none => Except.error ()
  let parts := pySplit (Char.ofNat 44) (pyStrip out)
  let wh ← match parts with
    | [a, b] => pure (a, b)
    | _ => Except.error ()
  let w ← match parseDec wh.1 with
    | some v => pure v
    | none => Except.error ()
  let h ← match parseDec wh.2 with
    | some v => pure v
    | none => Except.error ()
  pure (w, h)

/-- `get_video_size`: the `except Exception: return None` wrapper. -/
def get_video_size (probe : Option (List Char)) : Option (Nat × Nat) :=
  match getVideoSizeBody probe with
  | .ok v => some v
  | .error _ => none

/-- One tile along one image axis: the non-padded region
`[start, start+width)` inside a padded read region `[lo, hi)` clamped at
the image border. -/
structure Tile1 where
  start : Nat
  width : Nat
  lo : Nat
  hi : Nat
deriving DecidableEq, Repr

/-- Tile start offsets along an axis of length `len`: one tile every `edge`
pixels, `⌈len/edge⌉` tiles in total. -/
def tileStarts (len edge : Nat) : List Nat :=
  (List.range ((len + edge - 1) / edge)).map (· * edge)

/-- Modelled from the spec, §4.3 step 1: the tile grid along one axis, each
tile at most `edge` wide, padded by `pad` pixels clamped to the border. -/
def tiles1 (len edge pad : Nat) : List Tile1 :=
  (tileStarts len edge).map fun s =>
    { start := s, width := min edge (len - s), lo := s - pad, hi := min len (s + edge + pad) }

/-- Modelled from the spec, §4.3 steps 2–3: the model upscales the padded
tile by its fixed native integer ratio and the output is cropped back to
the non-padded region scaled by that ratio, so the cropped output of a tile
is `ratio · width` pixels wide. -/
def croppedOutWidth (ratio : Nat) (t : Tile1) : Nat := ratio * t.width

/-- Modelled from the spec, §4.3 step 4: cropped tile outputs composited
side by side; the canvas length along an axis is the sum of the cropped
widths. -/
def canvasLen (len edge pad ratio : Nat) : Nat :=
  ((tiles1 len edge pad).map (croppedOutWidth ratio)).sum

/-- Modelled from the spec, §4.3 step 5: if the requested scale differs
from the native ratio, the composited canvas is resampled to
`round(len·scale)`; otherwise the canvas is the output. -/
def enhanceLen (len edge pad ratio : Nat) (outscale : ℚ) : Nat :=
  if outscale = (ratio : ℚ) then canvasLen len edge pad ratio
  else (round ((len : ℚ) * outscale)).toNat

/-- Output raster size of one enhanced frame. -/
def enhanceSize (W H edge pad ratio : Nat) (outscale : ℚ) : Nat × Nat :=
  (enhanceLen W edge pad ratio outscale, enhanceLen H edge pad ratio outscale)

/-- The engine exactly as invoked by `upscale_frames_cuda`:
`tile=512, tile_pad=10`, native model ratio 4. -/
def upscaledFrameSize (W H : Nat) (scale : ℚ) : Nat × Nat :=
  enhanceSize W H 512 10 4 scale

/-- The filesystem locations one job touches. -/
inductive FPath
  | tmpInput        -- `/tmp/input_<hex>.mp4`, the download target
  | userFile        -- the caller's `file_path`
  | workSrc         -- `<work_dir>/src.mp4`
  | frame (i : Nat) -- `<work_dir>/frame_%08d.png` (`i`-th extracted frame)
  | upFrame (i : Nat) -- `<work_dir>/frames_upscaled_%08d.png`
  | noAudioVid      -- `<work_dir>/upscaled_noaudio.mp4`
  | finalVid        -- `<work_dir>/upscaled_with_audio.mp4`
deriving DecidableEq

/-- A filesystem: file size when the file exists. -/
def FS := FPath → Option Nat

def FS.set (fs : FS) (p : FPath) (sz : Nat) : FS :=
  fun q => if q = p then some sz else fs q

def FS.del (fs : FS) (p : FPath) : FS :=
  fun q => if q = p then none else fs q

/-- `os.path.isfile`. -/
def FS.isfile (fs : FS) (p : FPath) : Bool := (fs p).isSome

/-- `os.path.getsize` (0 when absent; only queried on existing files). -/
def FS.getsize (fs : FS) (p : FPath) : Nat := (fs p).getD 0

/-- `os.rename(a, b)`. -/
def FS.rename (fs : FS) (a b : FPath) : FS :=
  fun q => if q = a then none else if q = b then fs a else fs q

/-- Frame extraction writes one `frame_%08d.png` per decoded frame
(indices relabelled from 0 here). -/
def FS.addFrames (fs : FS) (n : Nat) : FS :=
  fun q => match q with
    | .frame i => if i < n then some 1 else fs q
    | _ => fs q

/-- `upscale_frames_cuda` writes one `frames_upscaled_%08d.png` per frame. -/
def FS.addUpFrames (fs : FS) (n : Nat) : FS :=
  fun q => match q with
    | .upFrame i => if i < n then some 1 else fs q
    | _ => fs q

/-- The empty filesystem. -/
def FS.empty : FS := fun _ => none

/-- The request fields the pipeline's control flow depends on; `crf` and
`preset` only ever appear stringified inside commands. -/
structure Job where
  videoUrl : Option (List Char)
  filePath : Option (List Char)
  crfStr : List Char
  presetStr : List Char

/-- The external world: generated identifiers, each external process's exit
status, the decoded frame count, and the stderr text of a failing tool
(which `subprocess.check_call` never captures). -/
structure Env where
  tmpHex : List Char      -- `uuid4().hex` for the download target
  jobId : List Char       -- `str(uuid4())` naming the work directory
  fpsStr : List Char      -- `str(out_fps)` as passed to the encoder
  stderrText : List Char  -- what the failing tool printed on stderr
  curlExit : Nat
  downloadSize : Nat      -- size of the downloaded file when curl exits 0
  extractExit : Nat
  numFrames : Nat
  encodeExit : Nat
  remuxExit : Nat

/-- `/tmp/input_<hex>.mp4`. -/
def tmpInputText (hex : List Char) : List Char :=
  "/tmp/input_".data ++ hex ++ ".mp4".data

/-- `/tmp/<job_id>/<name>`. -/
def workText (jobId name : List Char) : List Char :=
  "/tmp/".data ++ jobId ++ "/".data ++ name

def srcText (jobId : List Char) : List Char := workText jobId "src.mp4".data

def framePatText (jobId : List Char) : List Char :=
  workText jobId "frame_%08d.png".data

def upFramePatText (jobId : List Char) : List Char :=
  workText jobId "frames_upscaled_%08d.png".data

def noAudioText (jobId : List Char) : List Char :=
  workText jobId "upscaled_noaudio.mp4".data

def finalText (jobId : List Char) : List Char :=
  workText jobId "upscaled_with_audio.mp4".data

/-- The download command built by `handler`. -/
def curlCmd (url tmpPath : List Char) : List (List Char) :=
  ["curl".data, "-L".data, "-s".data, "-S".data, url, "-o".data, tmpPath]

/-- The frame-extraction command built by `upscale_video`. -/
def extractCmd (src framePat : List Char) : List (List Char) :=
  ["ffmpeg".data, "-y".data, "-i".data, src, "-q:v".data, "1".data, framePat]

/-- The reassembly (encode) command built by `upscale_video`. -/
def encodeCmd (fpsStr upPat crfStr presetStr outV : List Char) : List (List Char) :=
  ["ffmpeg".data, "-y".data, "-framerate".data, fpsStr, "-i".data, upPat,
   "-c:v".data, "libx264".data, "-crf".data, crfStr, "-preset".data, presetStr,
   "-pix_fmt".data, "yuv420p".data, outV]

/-- The audio-remux command built by `upscale_video`. -/
def remuxCmd (noAudio src finalV : List Char) : List (List Char) :=
  ["ffmpeg".data, "-y".data, "-i".data, noAudio, "-i".data, src,
   "-c:v".data, "copy".data, "-c:a".data, "copy".data, "-shortest".data, finalV]

/-- `repr` of one Python string (no escaping needed for these values). -/
def pyStrRepr (s : List Char) : List Char :=
  "'".data ++ s ++ "'".data

/-- `str` of a Python list of strings. -/
def pyListRepr (xs : List (List Char)) : List Char :=
  "[".data ++ (List.intersperse ", ".data (xs.map pyStrRepr)).flatten ++ "]".data

/-- `str(subprocess.CalledProcessError(code, cmd))`. -/
def cpeMessage (cmd : List (List Char)) (code : Nat) : List Char :=
  "Command '".data ++ pyListRepr cmd
    ++ "' returned non-zero exit status ".data ++ natDigits code ++ ".".data

/-- The error payloads `handler` can return. -/
inductive HandlerError
  | missingInput              -- neither video_url nor file_path
  | downloadEmpty             -- downloaded file missing or zero-sized
  | fileNotFound (p : List Char)
  | stageFailed (cmd : List (List Char)) (code : Nat)  -- caught CalledProcessError
deriving DecidableEq

/-- The user-visible `"error"` field. -/
def errorMessage : HandlerError → List Char
  | .missingInput => "Provide either 'video_url' or 'file_path' in input.".data
  | .downloadEmpty => "Download failed or empty file.".data
  | .fileNotFound p => "File not found: ".data ++ p
  | .stageFailed cmd code => "Upscale failed: ".data ++ cpeMessage cmd code

/-- What `handler` hands back: the success payload (base64 of the final
video) or a structured error dict with `output_base64 = None`. -/
inductive HandlerResult
  | ok
  | err (e : HandlerError)
deriving DecidableEq

/-- `upscale_video`: rename the input into the work directory, extract
frames, upscale them, encode, remux.  A non-zero exit of an external stage
raises `CalledProcessError`, modelled as `Except.error` carrying the
filesystem at the raise, the failing command and its exit status. -/
def upscale_video_fs (env : Env) (job : Job) (fs : FS) (inPath : FPath) :
    Except (FS × List (List Char) × Nat) FS :=
  let fs := if inPath = FPath.workSrc then fs else fs.rename inPath .workSrc
  if env.extractExit ≠ 0 then
    .error (fs, extractCmd (srcText env.jobId) (framePatText env.jobId), env.extractExit)
  else
    let fs := fs.addFrames env.numFrames
    let fs := fs.addUpFrames env.numFrames
    if env.encodeExit ≠ 0 then
      .error (fs, encodeCmd env.fpsStr (upFramePatText env.jobId) job.crfStr
                    job.presetStr (noAudioText env.jobId), env.encodeExit)
    else
      let fs := fs.set .noAudioVid 1
      if env.remuxExit ≠ 0 then
        .error (fs, remuxCmd (noAudioText env.jobId) (srcText env.jobId)
                      (finalText env.jobId), env.remuxExit)
      else
        .ok (fs.set .finalVid 1)

/-- The call to `upscale_video` plus the surrounding `except
subprocess.CalledProcessError` arm. -/
def pipelineRun (env : Env) (job : Job) (fs : FS) (inPath : FPath) :
    FS × HandlerResult :=
  match upscale_video_fs env job fs inPath with
  | .ok fs' => (fs', .ok)
  | .error (fs', cmd, code) => (fs', .err (.stageFailed cmd code))

/-- The `finally` block: remove the download target if the job came from a
URL and the file still exists. -/
def finallyCleanup (fromUrl : Bool) (fs : FS) : FS :=
  if fromUrl ∧ fs.isfile .tmpInput then fs.del .tmpInput else fs

/-- `handler`: input validation, download or local-path check, the
pipeline, the `except` arm and the `finally` block. -/
def handler_fs (env : Env) (fs0 : FS) (job : Job) : FS × HandlerResult :=
  match job.videoUrl, job.filePath with
  | none, none => (fs0, .err .missingInput)
  | vu, fp =>
    let core : FS × HandlerResult :=
      match vu, fp with
      | some url, _ =>
        let fs1 := fs0.set .tmpInput (if env.curlExit = 0 then env.downloadSize else 0)
        if env.curlExit ≠ 0 then
          (fs1, .err (.stageFailed (curlCmd url (tmpInputText env.tmpHex)) env.curlExit))
        else if ¬ fs1.isfile .tmpInput ∨ fs1.getsize .tmpInput = 0 then
          (fs1, .err .downloadEmpty)
        else
          pipelineRun env job fs1 .tmpInput
      | none, some p =>
        if fs0.isfile .userFile then pipelineRun env job fs0 .userFile
        else (fs0, .err (.fileNotFound p))
      | none, none => (fs0, .err .missingInput)
    (finallyCleanup vu.isSome core.1, core.2)

/-- One elementary stream: opaque encoded payload plus duration.  Equal
`content` means bit-identical data (stream copy, no re-encode). -/
structure AVStream where
  content : Nat
  dur : ℚ
deriving DecidableEq

/-- A media container: at most one video and one audio stream. -/
structure MediaFile where
  video : Option AVStream
  audio : Option AVStream
deriving DecidableEq

/-- `-shortest`: the output duration is the shortest mapped stream's. -/
def remuxDuration (v a : Option AVStream) : ℚ :=
  match v, a with
  | some sv, some sa => min sv.dur sa.dur
  | some sv, none => sv.dur
  | none, some sa => sa.dur
  | none, none => 0

/-- Modelled from the spec, §4.5: a copy-copy remux maps the first input's
video stream and the second input's audio stream, copies both payloads
verbatim, and `-shortest` truncates to the shorter stream.  A missing audio
stream on the second input simply yields an output with no audio. -/
def remuxSem (newVid srcVid : MediaFile) : MediaFile :=
  let d := remuxDuration newVid.video srcVid.audio
  { video := newVid.video.map fun s => { content := s.content, dur := min s.dur d }
    audio := srcVid.audio.map fun s => { content := s.content, dur := min s.dur d } }

/-- Recognize the exact remux command shape `upscale_video` builds;
any other command shape is not given a semantics here. -/
def parseRemuxCmd (cmd : List (List Char)) : Option (List Char × List Char × List Char) :=
  match cmd with
  | [w0, w1, w2, a, w3, b, w4, w5, w6, w7, w8, out] =>
    if w0 = "ffmpeg".data ∧ w1 = "-y".data ∧ w2 = "-i".data ∧ w3 = "-i".data
        ∧ w4 = "-c:v".data ∧ w5 = "copy".data ∧ w6 = "-c:a".data ∧ w7 = "copy".data
        ∧ w8 = "-shortest".data then
      some (a, b, out)
    else none
  | _ => none

/-- Run a command as a remux: defined (without error) exactly on
copy-copy-shortest remux commands, on the two input containers. -/
def runRemux (cmd : List (List Char)) (newVid srcVid : MediaFile) : Option MediaFile :=
  match parseRemuxCmd cmd with
  | some _ => some (remuxSem newVid srcVid)
  | none => none

/-- An environment in which every external stage succeeds. -/
def sampleEnv : Env :=
  { tmpHex := "deadbeef".data, jobId := "job-1".data, fpsStr := "30.0".data
    stderrText := [], curlExit := 0, downloadSize := 5, extractExit := 0
    numFrames := 2, encodeExit := 0, remuxExit := 0 }

/-- An environment in which frame extraction exits 1 after printing a
diagnostic on stderr. -/
def failEnv : Env :=
  { tmpHex := "deadbeef".data, jobId := "job-1".data, fpsStr := "30.0".data
    stderrText := "Invalid data found when processing input".data
    curlExit := 0, downloadSize := 5, extractExit := 1, numFrames := 0
    encodeExit := 0, remuxExit := 0 }

/-- A job supplied by URL. -/
def urlJob : Job :=
  { videoUrl := some "https://example.com/a.mp4".data, filePath := none
    crfStr := "20".data, presetStr := "medium".data }

/-- A job supplied by a collaborator-provided local path. -/
def fileJob : Job :=
  { videoUrl := none, filePath := some "/data/in.mp4".data
    crfStr := "20".data, presetStr := "medium".data }

/-- A job with neither source field. -/
def noSourceJob : Job :=
  { videoUrl := none, filePath := none, crfStr := "20".data, presetStr := "medium".data }

/-- A filesystem holding only the caller's local source file. -/
def fsWithUser : FS := FS.empty.set .userFile 7

/-- The filesystem of either arm of a stage result (the state at a raise,
or the state on success). -/
def stageFS : Except (FS × List (List Char) × Nat) FS → FS
  | .ok fs => fs
  | .error (fs, _, _) => fs

/-! ## Theorems -/

theorem digitsVal_append (s t : List Char) :
    digitsVal (s ++ t) = t.foldl (fun acc c => 10 * acc + charVal c) (digitsVal s) := by
  simp [digitsVal, List.foldl_append]

theorem natDigitsAux_ne_nil (fuel n : Nat) : natDigitsAux fuel n ≠ [] := by
  cases fuel with
  | zero => simp [natDigitsAux]
  | succ fuel =>
    unfold natDigitsAux
    split <;> simp

theorem natDigits_ne_nil (n : Nat) : natDigits n ≠ [] := natDigitsAux_ne_nil n n

theorem charVal_ofNat (d : Nat) (h : d < 10) : charVal (Char.ofNat (48 + d)) = d := by
  interval_cases d <;> rfl

theorem isDigitChar_ofNat (d : Nat) (h : d < 10) : isDigitChar (Char.ofNat (48 + d)) = true := by
  interval_cases d <;> rfl

theorem digitsVal_natDigitsAux (fuel : Nat) : ∀ n, n ≤ fuel ∨ n < 10 →
    digitsVal (natDigitsAux fuel n) = n := by
  induction fuel with
  | zero =>
    intro n h
    have hn : n < 10 := by omega
    simp [natDigitsAux, digitsVal, charVal_ofNat _ (Nat.mod_lt _ (by norm_num))]
    omega
  | succ fuel ih =>
    intro n h
    unfold natDigitsAux
    split
    · next hlt => simp [digitsVal, charVal_ofNat n hlt]
    · next hge =>
      have hrec : n / 10 ≤ fuel := by
        have hd : n / 10 < n := Nat.div_lt_self (by omega) (by norm_num)
        omega
      rw [digitsVal_append, ih (n / 10) (Or.inl hrec)]
      simp [charVal_ofNat (n % 10) (Nat.mod_lt _ (by norm_num))]
      omega

/-- `digitsVal` recovers the number: decimal printing round-trips. -/
theorem digitsVal_natDigits (n : Nat) : digitsVal (natDigits n) = n :=
  digitsVal_natDigitsAux n n (Or.inl le_rfl)

theorem natDigitsAux_all_digits (fuel : Nat) :
    ∀ n, ∀ c ∈ natDigitsAux fuel n, isDigitChar c = true := by
  induction fuel with
  | zero =>
    intro n c hc
    simp [natDigitsAux] at hc
    subst hc
    exact isDigitChar_ofNat _ (Nat.mod_lt _ (by norm_num))
  | succ fuel ih =>
    intro n c hc
    unfold natDigitsAux at hc
    split at hc
    · next h =>
      simp at hc
      subst hc
      exact isDigitChar_ofNat n h
    · next h =>
      simp at hc
      rcases hc with hc | hc
      · exact ih _ c hc
      · subst hc
        exact isDigitChar_ofNat _ (Nat.mod_lt _ (by norm_num))

theorem natDigits_all_digits (n : Nat) : ∀ c ∈ natDigits n, isDigitChar c = true :=
  natDigitsAux_all_digits n n

theorem digitsVal_cons_zero (t : List Char) :
    digitsVal (Char.ofNat 48 :: t) = digitsVal t := by
  have h : (10 * 0 + charVal (Char.ofNat 48)) = 0 := by decide
  simp only [digitsVal, List.foldl_cons]
  rw [h]

theorem digitsVal_replicate_zero_append (k : Nat) (t : List Char) :
    digitsVal (List.replicate k (Char.ofNat 48) ++ t) = digitsVal t := by
  induction k with
  | zero => simp
  | succ k ih =>
    have h : List.replicate (k + 1) (Char.ofNat 48) ++ t
        = Char.ofNat 48 :: (List.replicate k (Char.ofNat 48) ++ t) := by
      simp [List.replicate_succ]
    rw [h, digitsVal_cons_zero, ih]

theorem digitsVal_pad8 (n : Nat) : digitsVal (pad8 n) = n := by
  rw [pad8, digitsVal_replicate_zero_append, digitsVal_natDigits]

/-- `pad8` is injective: no two frame indices share a padded name. -/
theorem pad8_injective : Function.Injective pad8 := by
  intro a b h
  have := digitsVal_pad8 a
  rw [h, digitsVal_pad8] at this
  omega

theorem pad8_all_digits (n : Nat) : ∀ c ∈ pad8 n, isDigitChar c = true := by
  intro c hc
  rw [pad8, List.mem_append] at hc
  rcases hc with hc | hc
  · rw [List.eq_of_mem_replicate hc]
    exact isDigitChar_ofNat 0 (by norm_num)
  · exact natDigits_all_digits n c hc

theorem replaceAllAux_skip (pat rep : List Char) (l t : List Char) :
    replaceAllAux pat rep l.length (l ++ t) = replaceAllAux pat rep 0 t := by
  induction l with
  | nil => rfl
  | cons c l ih => simpa [replaceAllAux] using ih

/-- Replacing at a literal occurrence at the front. -/
theorem replaceAll_append_pat (pat rep t : List Char) (h : pat ≠ []) :
    replaceAll pat rep (pat ++ t) = rep ++ replaceAll pat rep t := by
  cases pat with
  | nil => exact absurd rfl h
  | cons p ps =>
    show replaceAllAux (p :: ps) rep 0 (p :: (ps ++ t)) = _
    rw [replaceAllAux]
    have hpre : (p :: ps).isPrefixOf (p :: (ps ++ t)) = true := by
      simp [List.isPrefixOf_iff_prefix]
    rw [if_pos ⟨by simp, hpre⟩]
    have : (p :: ps).length - 1 = ps.length := by simp
    rw [this, replaceAllAux_skip]
    rfl

/-- A string avoiding the pattern's first character is left unchanged. -/
theorem replaceAll_of_head_not_mem (p : Char) (ps rep : List Char) (s : List Char)
    (h : p ∉ s) : replaceAll (p :: ps) rep s = s := by
  induction s with
  | nil => rfl
  | cons c rest ih =>
    show replaceAllAux (p :: ps) rep 0 (c :: rest) = _
    rw [replaceAllAux]
    have hne : ¬ ((p :: ps) ≠ [] ∧ (p :: ps).isPrefixOf (c :: rest) = true) := by
      rintro ⟨-, hpre⟩
      rw [List.isPrefixOf_iff_prefix] at hpre
      obtain ⟨u, hu⟩ := hpre
      have : p = c := by
        have := congrArg (List.head? ·) hu
        simpa using this
      exact h (this ▸ List.mem_cons_self _ _)
    rw [if_neg hne]
    have := ih (fun hm => h (List.mem_cons_of_mem _ hm))
    exact congrArg (c :: ·) this

theorem isFrameFile_extractedName (i : Nat) :
    isFrameFile (extractedName i) = true := by
  have h1 : pyStartsWith framePrefix (extractedName i) = true := by
    simp [pyStartsWith, extractedName, List.isPrefixOf_iff_prefix]
  have h2 : pyEndsWith pngSuffix (extractedName i) = true := by
    simp only [pyEndsWith, extractedName, List.isSuffixOf_iff_suffix]
    rw [← List.append_assoc]
    exact List.suffix_append _ _
  simp [isFrameFile, h1, h2]

theorem isFrameFile_src : isFrameFile srcFileName = false := by decide

theorem not_f_mem_tail (i : Nat) : Char.ofNat 102 ∉ pad8 i ++ pngSuffix := by
  intro hmem
  rw [List.mem_append] at hmem
  rcases hmem with h | h
  · have := pad8_all_digits i _ h
    simp [isDigitChar] at this
  · simp [pngSuffix] at h

theorem upscaleOutName_extractedName (i : Nat) :
    upscaleOutName (extractedName i) = upscaledName i := by
  have hpre : framePrefix = Char.ofNat 102 :: "rame_".data := by decide
  rw [upscaleOutName, extractedName,
      replaceAll_append_pat _ _ _ (by decide)]
  rw [upscaledName]
  congr 1
  rw [hpre, replaceAll_of_head_not_mem _ _ _ _ (not_f_mem_tail i)]

theorem upscaledName_injective : Function.Injective upscaledName := by
  intro a b h
  rw [upscaledName, upscaledName] at h
  have h2 := List.append_cancel_left h
  have h3 := List.append_cancel_right h2
  exact pad8_injective h3

/-- C3: `resolve_scale` gives an explicit positive `scale` precedence over
`target_resolution`; otherwise `"2k"` and `"1440p"` resolve to 2.0,
`"1080p"` to 1.5, and with both absent the hardcoded default 1.5 is
returned. -/
theorem resolve_scale_precedence (sc : Option ℚ) (tr : Option (List Char)) :
    (∀ v, sc = some v → 0 < v → resolve_scale sc tr = v)
    ∧ ((∀ v, sc = some v → ¬ 0 < v) →
        resolve_scale sc (some "2k".data) = 2
        ∧ resolve_scale sc (some "1440p".data) = 2
        ∧ resolve_scale sc (some "1080p".data) = 3/2
        ∧ resolve_scale sc none = 3/2) := by
  constructor
  · intro v hv hpos
    subst hv
    simp [resolve_scale, hpos]
  · intro hnp
    cases sc with
    | none => exact ⟨rfl, rfl, rfl, rfl⟩
    | some v =>
      have hv := hnp v rfl
      have hr : ∀ t, resolve_scale (some v) t = resolveFromTarget t := by
        intro t
        simp [resolve_scale, hv]
      exact ⟨by rw [hr]; rfl, by rw [hr]; rfl, by rw [hr]; rfl, by rw [hr]; rfl⟩

/-- Witness for C3 at concrete inputs. -/
theorem resolve_scale_precedence_witness :
    resolve_scale (some 3) (some "1080p".data) = 3
    ∧ resolve_scale none (some "2k".data) = 2
    ∧ resolve_scale none none = 3/2 :=
  ⟨(resolve_scale_precedence (some 3) (some "1080p".data)).1 3 rfl (by norm_num),
   ((resolve_scale_precedence none (some "2k".data)).2 (fun _ hv => nomatch hv)).2.1,
   ((resolve_scale_precedence none none).2 (fun _ hv => nomatch hv)).2.2.2⟩

/-- C10: `resolve_scale` normalizes `target_resolution` (strip, lowercase,
remove spaces) before the preset lookup, so `"2K"` and `" 1440P "` resolve
to 2.0; any unrecognized value silently resolves to the default 1.5. -/
theorem resolve_scale_normalization :
    resolve_scale none (some "2K".data) = 2
    ∧ resolve_scale none (some " 1440P ".data) = 2
    ∧ ∀ tr : List Char,
        normalizeKey tr ≠ "1080p".data → normalizeKey tr ≠ "2k".data →
        normalizeKey tr ≠ "1440p".data →
        resolve_scale none (some tr) = 3/2 := by
  refine ⟨rfl, rfl, ?_⟩
  intro tr h1 h2 h3
  show resolveFromTarget (some tr) = 3/2
  rw [resolveFromTarget]
  by_cases he : tr = []
  · simp [he, DEFAULT_SCALE]
  · rw [if_pos he]
    have b1 : (normalizeKey tr == "1080p".data) = false := beq_eq_false_iff_ne.mpr h1
    have b2 : (normalizeKey tr == "2k".data) = false := beq_eq_false_iff_ne.mpr h2
    have b3 : (normalizeKey tr == "1440p".data) = false := beq_eq_false_iff_ne.mpr h3
    have hlook : List.lookup (normalizeKey tr) TARGET_RESOLUTION_SCALE = none := by
      simp [TARGET_RESOLUTION_SCALE, List.lookup, b1, b2, b3]
    rw [hlook]
    simp [h1, h2, h3, DEFAULT_SCALE]

/-- Witness for C10 at a concrete unrecognized value. -/
theorem resolve_scale_normalization_witness :
    resolve_scale none (some "4k".data) = 3/2 :=
  resolve_scale_normalization.2.2 "4k".data (by decide) (by decide) (by decide)

theorem isSpaceChar_of_digit {c : Char} (h : isDigitChar c = true) :
    isSpaceChar c = false := by
  simp [isDigitChar] at h
  simp [isSpaceChar]
  omega

theorem dropWhile_eq_self_of_all {p : Char → Bool} :
    ∀ s : List Char, (∀ c ∈ s, p c = false) → s.dropWhile p = s
  | [], _ => rfl
  | c :: t, h => by simp [List.dropWhile, h c (List.mem_cons_self c t)]

theorem pyStrip_eq_self {s : List Char} (h : ∀ c ∈ s, isSpaceChar c = false) :
    pyStrip s = s := by
  rw [pyStrip, dropWhile_eq_self_of_all s h,
      dropWhile_eq_self_of_all s.reverse (fun c hc => h c (List.mem_reverse.mp hc)),
      List.reverse_reverse]

theorem pySplit_no_sep {sep : Char} :
    ∀ s : List Char, sep ∉ s → pySplit sep s = [s]
  | [], _ => rfl
  | c :: t, h => by
    have hc : ¬ c = sep := fun he => h (he ▸ List.mem_cons_self c t)
    have ht := pySplit_no_sep t (fun hm => h (List.mem_cons_of_mem _ hm))
    simp [pySplit, hc, ht]

theorem pySplit_append_sep {sep : Char} :
    ∀ a b : List Char, sep ∉ a →
      pySplit sep (a ++ sep :: b) = a :: pySplit sep b
  | [], b, _ => by simp [pySplit]
  | c :: t, b, h => by
    have hc : ¬ c = sep := fun he => h (he ▸ List.mem_cons_self c t)
    have ht := pySplit_append_sep t b (fun hm => h (List.mem_cons_of_mem _ hm))
    simp [pySplit, hc, ht]

theorem parseDec_natDigits (n : Nat) : parseDec (natDigits n) = some n := by
  rw [parseDec, if_pos, digitsVal_natDigits]
  exact ⟨natDigits_ne_nil n, by simpa [List.all_eq_true] using natDigits_all_digits n⟩

theorem not_mem_natDigits_of_lt {c : Char} (hc : c.toNat < 48) (n : Nat) :
    c ∉ natDigits n := by
  intro h
  have := natDigits_all_digits n c h
  simp [isDigitChar] at this
  omega

theorem natDigits_eq_zero_iff (d : Nat) : natDigits d = "0".data ↔ d = 0 := by
  constructor
  · intro h
    have hv := digitsVal_natDigits d
    rw [h] at hv
    simpa [digitsVal, charVal] using hv.symm
  · intro h
    subst h
    rfl

/-- C5: the prober never raises: `get_video_fps` parses `num/den` from a
successful probe into the rational frame rate (24000/1001 ≈ 23.976) and
degrades to exactly 30.0 on probe failure or on a zero denominator;
`get_video_size` parses `w,h` or returns `none` on probe failure. -/
theorem prober_never_raises :
    (∀ n d : Nat, d ≠ 0 →
       get_video_fps (some (natDigits n ++ Char.ofNat 47 :: natDigits d)) = (n : ℚ) / d)
    ∧ get_video_fps (some "24000/1001".data) = 24000 / 1001
    ∧ get_video_fps none = 30
    ∧ (∀ n : Nat, get_video_fps (some (natDigits n ++ Char.ofNat 47 :: natDigits 0)) = 30)
    ∧ (∀ w h : Nat,
        get_video_size (some (natDigits w ++ Char.ofNat 44 :: natDigits h)) = some (w, h))
    ∧ get_video_size none = none := by
  have hstrip : ∀ (sep : Char), isSpaceChar sep = false →
      ∀ n d : Nat, pyStrip (natDigits n ++ sep :: natDigits d)
        = natDigits n ++ sep :: natDigits d := by
    intro sep hsep n d
    apply pyStrip_eq_self
    intro c hc
    rcases List.mem_append.mp hc with h | h
    · exact isSpaceChar_of_digit (natDigits_all_digits n c h)
    · rcases List.mem_cons.mp h with h | h
      · subst h
        exact hsep
      · exact isSpaceChar_of_digit (natDigits_all_digits d c h)
  have hsplit : ∀ (sep : Char), sep.toNat < 48 →
      ∀ n d : Nat, pySplit sep (natDigits n ++ sep :: natDigits d)
        = [natDigits n, natDigits d] := by
    intro sep hsep n d
    rw [pySplit_append_sep _ _ (not_mem_natDigits_of_lt hsep n),
        pySplit_no_sep _ (not_mem_natDigits_of_lt hsep d)]
  have hz0 : natDigits 0 = "0".data := rfl
  refine ⟨?_, rfl, rfl, ?_, ?_, rfl⟩
  · intro n d hd
    have hz : ¬ (natDigits d = "0".data) := fun h => hd ((natDigits_eq_zero_iff d).mp h)
    simp [get_video_fps, getVideoFpsBody, hstrip (Char.ofNat 47) (by decide),
          hsplit (Char.ofNat 47) (by decide), hz, parseDec_natDigits, hd,
          Bind.bind, Except.bind, pure, Except.pure]
  · intro n
    have h1 : pyStrip (natDigits n ++ Char.ofNat 47 :: ['0'])
        = natDigits n ++ Char.ofNat 47 :: ['0'] := by
      simpa [hz0] using hstrip (Char.ofNat 47) (by decide) n 0
    have h2 : pySplit (Char.ofNat 47) (natDigits n ++ Char.ofNat 47 :: ['0'])
        = [natDigits n, ['0']] := by
      simpa [hz0] using hsplit (Char.ofNat 47) (by decide) n 0
    simp [get_video_fps, getVideoFpsBody, hz0, h1, h2, Bind.bind, Except.bind,
          pure, Except.pure]
  · intro w h
    simp [get_video_size, getVideoSizeBody, hstrip (Char.ofNat 44) (by decide),
          hsplit (Char.ofNat 44) (by decide), parseDec_natDigits, Bind.bind,
          Except.bind, pure, Except.pure]

/-- Witness for C5 at the spec's scenario values. -/
theorem prober_never_raises_witness :
    get_video_fps (some (natDigits 24000 ++ Char.ofNat 47 :: natDigits 1001))
      = (24000 : ℚ) / 1001 :=
  prober_never_raises.1 24000 1001 (by norm_num)

/-- C2: given the work directory's listing (source copy plus the extracted
frames), `upscale_frames_cuda` writes exactly the upscaled names with the
same zero-padded indices — a permutation of one output per input index —
and the naming is injective, so no frame is dropped or duplicated. -/
theorem upscale_frame_index_correspondence (ixs : List Nat) :
    (upscaleOutputs (workListing ixs)).Perm (ixs.map upscaledName)
    ∧ Function.Injective upscaledName := by
  refine ⟨?_, upscaledName_injective⟩
  have hperm : ((workListing ixs).mergeSort lexLe).Perm (workListing ixs) :=
    List.mergeSort_perm _ _
  have h1 : (((workListing ixs).mergeSort lexLe).filter isFrameFile).Perm
      ((workListing ixs).filter isFrameFile) := hperm.filter _
  have h2 : (workListing ixs).filter isFrameFile = ixs.map extractedName := by
    rw [workListing, List.filter_cons]
    simp only [isFrameFile_src, if_false, Bool.false_eq_true]
    apply List.filter_eq_self.mpr
    intro a ha
    obtain ⟨i, -, rfl⟩ := List.mem_map.mp ha
    exact isFrameFile_extractedName i
  have h3 := h1.map upscaleOutName
  rw [h2] at h3
  have h4 : (ixs.map extractedName).map upscaleOutName = ixs.map upscaledName := by
    rw [List.map_map]
    exact List.map_congr_left (fun i _ => upscaleOutName_extractedName i)
  rw [upscaleOutputs]
  exact h4 ▸ h3

theorem tileStarts_single (len edge : Nat) (h1 : 0 < len) (h2 : len ≤ edge) :
    tileStarts len edge = [0] := by
  have hn : (len + edge - 1) / edge = 1 := by
    apply Nat.div_eq_of_lt_le <;> omega
  rw [tileStarts, hn]
  simp [List.range_succ]

theorem tileStarts_step (len edge : Nat) (he : 0 < edge) (hl : edge < len) :
    tileStarts len edge = 0 :: (tileStarts (len - edge) edge).map (· + edge) := by
  have h1 : len + edge - 1 = ((len - edge) + edge - 1) + edge := by omega
  have hn : (len + edge - 1) / edge = ((len - edge) + edge - 1) / edge + 1 := by
    rw [h1, Nat.add_div_right _ he]
  rw [tileStarts, hn, List.range_succ_eq_map, List.map_cons, List.map_map,
      tileStarts, List.map_map]
  have hc : ((· * edge) ∘ (· + 1)) = ((· + edge) ∘ (· * edge)) := by
    funext k
    simp [Function.comp]
    ring
  rw [hc]
  simp

/-- The non-padded tile widths along an axis sum to the axis length: the
tile grid covers the frame exactly. -/
theorem sum_tile_widths (edge : Nat) (he : 0 < edge) :
    ∀ len, 0 < len →
      ((tileStarts len edge).map (fun s => min edge (len - s))).sum = len := by
  intro len
  induction len using Nat.strong_induction_on with
  | _ len ih =>
    intro hl
    by_cases hle : len ≤ edge
    · rw [tileStarts_single len edge hl hle]
      simp
      omega
    · push_neg at hle
      rw [tileStarts_step len edge he hle, List.map_cons, List.sum_cons, List.map_map]
      have hmap : ((fun s => min edge (len - s)) ∘ (· + edge))
          = fun s => min edge ((len - edge) - s) := by
        funext s
        simp only [Function.comp]
        congr 1
        omega
      rw [hmap, ih (len - edge) (by omega) (by omega)]
      omega

theorem sum_map_mul (a : Nat) (f : Nat → Nat) :
    ∀ l : List Nat, (l.map fun x => a * f x).sum = a * (l.map f).sum
  | [] => by simp
  | x :: t => by simp [sum_map_mul a f t, Nat.mul_add]

theorem canvasLen_eq (len edge pad ratio : Nat) (he : 0 < edge) (hl : 0 < len) :
    canvasLen len edge pad ratio = ratio * len := by
  rw [canvasLen, tiles1, List.map_map]
  have hmap : (croppedOutWidth ratio ∘ fun s =>
      ({ start := s, width := min edge (len - s), lo := s - pad,
         hi := min len (s + edge + pad) } : Tile1))
      = fun s => ratio * min edge (len - s) := rfl
  rw [hmap, sum_map_mul ratio (fun s => min edge (len - s)),
      sum_tile_widths edge he len hl]

theorem enhanceLen_eq (len edge pad : Nat) (scale : ℚ) (hl : 0 < len) (he : 0 < edge) :
    enhanceLen len edge pad 4 scale = (round ((len : ℚ) * scale)).toNat := by
  rw [enhanceLen]
  by_cases h : scale = ((4 : Nat) : ℚ)
  · rw [if_pos h, canvasLen_eq len edge pad 4 he hl, h]
    have hc : ((len : ℚ) * ((4 : Nat) : ℚ)) = ((4 * len : Nat) : ℚ) := by
      push_cast
      ring
    rw [hc, round_natCast]
    omega
  · rw [if_neg h]

/-- C1: for every positive frame size and positive scale, the engine's
output raster is exactly round(W·scale) × round(H·scale), for any tile
edge and padding — the internal tiling is invisible in the output size. -/
theorem engine_output_dims (W H edge pad : Nat) (scale : ℚ)
    (hW : 0 < W) (hH : 0 < H) (he : 0 < edge) (hs : 0 < scale) :
    enhanceSize W H edge pad 4 scale
      = ((round ((W : ℚ) * scale)).toNat, (round ((H : ℚ) * scale)).toNat) := by
  rw [enhanceSize, enhanceLen_eq W edge pad scale hW he,
      enhanceLen_eq H edge pad scale hH he]

/-- Witness for C1: a 1280×720 frame at tile 512, pad 10, scale 1.5 comes
out exactly 1920×1080. -/
theorem engine_output_dims_witness :
    (0 < (3/2 : ℚ)) ∧ upscaledFrameSize 1280 720 (3/2) = (1920, 1080) := by
  constructor
  · norm_num
  · rw [upscaledFrameSize,
        engine_output_dims 1280 720 512 10 (3/2) (by norm_num) (by norm_num)
          (by norm_num) (by norm_num)]
    have h1 : (((1280 : Nat) : ℚ) * (3/2)) = ((1920 : Nat) : ℚ) := by norm_num
    have h2 : (((720 : Nat) : ℚ) * (3/2)) = ((1080 : Nat) : ℚ) := by norm_num
    rw [h1, h2, round_natCast, round_natCast]
    simp

theorem FS.set_apply (fs : FS) (p : FPath) (sz : Nat) (q : FPath) :
    FS.set fs p sz q = if q = p then some sz else fs q := rfl

theorem FS.del_apply (fs : FS) (p q : FPath) :
    FS.del fs p q = if q = p then none else fs q := rfl

theorem FS.rename_apply (fs : FS) (a b q : FPath) :
    FS.rename fs a b q = if q = a then none else if q = b then fs a else fs q := rfl

theorem FS.addFrames_apply_ne {fs : FS} {n : Nat} {q : FPath}
    (h : ∀ i, q ≠ FPath.frame i) : FS.addFrames fs n q = fs q := by
  cases q <;> first | rfl | exact absurd rfl (h _)

theorem FS.addUpFrames_apply_ne {fs : FS} {n : Nat} {q : FPath}
    (h : ∀ i, q ≠ FPath.upFrame i) : FS.addUpFrames fs n q = fs q := by
  cases q <;> first | rfl | exact absurd rfl (h _)

theorem finallyCleanup_apply_ne (b : Bool) (fs : FS) (q : FPath)
    (h : q ≠ FPath.tmpInput) : finallyCleanup b fs q = fs q := by
  rw [finallyCleanup]
  split_ifs with hb
  · rw [FS.del_apply]
    simp [h]
  · rfl

theorem pipelineRun_fst (env : Env) (job : Job) (fs : FS) (inPath : FPath) :
    (pipelineRun env job fs inPath).1 = stageFS (upscale_video_fs env job fs inPath) := by
  rw [pipelineRun]
  cases upscale_video_fs env job fs inPath with
  | ok fs' => rfl
  | error e => rfl

/-- The work-directory source copy after `upscale_video`, on success and on
every failure path alike: the input was renamed onto it. -/
theorem stageFS_upscale_workSrc (env : Env) (job : Job) (fs : FS) (inPath : FPath)
    (hi : inPath ≠ FPath.workSrc) :
    stageFS (upscale_video_fs env job fs inPath) FPath.workSrc = fs inPath := by
  have hrn : (FS.rename fs inPath FPath.workSrc) FPath.workSrc = fs inPath := by
    rw [FS.rename_apply]
    simp [Ne.symm hi]
  have hf : ∀ i, FPath.workSrc ≠ FPath.frame i := fun i h => nomatch h
  have hu : ∀ i, FPath.workSrc ≠ FPath.upFrame i := fun i h => nomatch h
  simp only [upscale_video_fs, if_neg hi]
  split_ifs <;>
    simp [stageFS, FS.set_apply, FS.addFrames_apply_ne hf, FS.addUpFrames_apply_ne hu, hrn]

/-- `upscale_video` leaves every location other than the work-directory
artifacts alone, except that it renames the input away. -/
theorem stageFS_upscale_apply (env : Env) (job : Job) (fs : FS) (inPath : FPath)
    (q : FPath) (hw : q ≠ FPath.workSrc) (hf : ∀ i, q ≠ FPath.frame i)
    (hu : ∀ i, q ≠ FPath.upFrame i) (hn : q ≠ FPath.noAudioVid)
    (hv : q ≠ FPath.finalVid) (hi : inPath ≠ FPath.workSrc) :
    stageFS (upscale_video_fs env job fs inPath) q
      = if q = inPath then none else fs q := by
  have hrn : (FS.rename fs inPath FPath.workSrc) q
      = if q = inPath then none else fs q := by
    rw [FS.rename_apply]
    by_cases hq : q = inPath
    · simp [hq]
    · simp [hq, hw]
  by_cases hq : q = inPath
  · subst hq
    simp only [if_pos rfl] at hrn
    simp only [upscale_video_fs, if_neg hi]
    split_ifs <;>
      simp [stageFS, FS.set_apply, hn, hv, FS.addFrames_apply_ne hf,
            FS.addUpFrames_apply_ne hu, hrn]
  · simp only [upscale_video_fs, if_neg hi]
    split_ifs <;>
      simp [stageFS, FS.set_apply, hn, hv, FS.addFrames_apply_ne hf,
            FS.addUpFrames_apply_ne hu, hrn, hq]

theorem pipelineRun_extract_fail (env : Env) (job : Job) (fs : FS) (inPath : FPath)
    (h : env.extractExit ≠ 0) :
    (pipelineRun env job fs inPath).2
      = .err (.stageFailed (extractCmd (srcText env.jobId) (framePatText env.jobId))
                env.extractExit) := by
  rw [pipelineRun, upscale_video_fs]
  simp [h]

theorem pipelineRun_encode_fail (env : Env) (job : Job) (fs : FS) (inPath : FPath)
    (h1 : env.extractExit = 0) (h2 : env.encodeExit ≠ 0) :
    (pipelineRun env job fs inPath).2
      = .err (.stageFailed (encodeCmd env.fpsStr (upFramePatText env.jobId) job.crfStr
                job.presetStr (noAudioText env.jobId)) env.encodeExit) := by
  rw [pipelineRun, upscale_video_fs]
  simp [h1, h2]

theorem pipelineRun_remux_fail (env : Env) (job : Job) (fs : FS) (inPath : FPath)
    (h1 : env.extractExit = 0) (h2 : env.encodeExit = 0) (h3 : env.remuxExit ≠ 0) :
    (pipelineRun env job fs inPath).2
      = .err (.stageFailed (remuxCmd (noAudioText env.jobId) (srcText env.jobId)
                (finalText env.jobId)) env.remuxExit) := by
  rw [pipelineRun, upscale_video_fs]
  simp [h1, h2, h3]

theorem pipelineRun_ok (env : Env) (job : Job) (fs : FS) (inPath : FPath)
    (h1 : env.extractExit = 0) (h2 : env.encodeExit = 0) (h3 : env.remuxExit = 0) :
    (pipelineRun env job fs inPath).2 = .ok := by
  rw [pipelineRun, upscale_video_fs]
  simp [h1, h2, h3]

/-- `handler` reduction: URL job, download succeeded and is non-empty. -/
theorem handler_fs_url (env : Env) (fs : FS) (job : Job) (url : List Char)
    (h : job.videoUrl = some url) (hc : env.curlExit = 0) (hs : env.downloadSize ≠ 0) :
    handler_fs env fs job
      = (finallyCleanup true
           (pipelineRun env job (FS.set fs .tmpInput env.downloadSize) .tmpInput).1,
         (pipelineRun env job (FS.set fs .tmpInput env.downloadSize) .tmpInput).2) := by
  simp [handler_fs, h, hc, hs, FS.set_apply, FS.isfile, FS.getsize]

/-- `handler` reduction: URL job, curl exited non-zero. -/
theorem handler_fs_url_curl_fail (env : Env) (fs : FS) (job : Job) (url : List Char)
    (h : job.videoUrl = some url) (hc : env.curlExit ≠ 0) :
    handler_fs env fs job
      = (finallyCleanup true (FS.set fs .tmpInput 0),
         .err (.stageFailed (curlCmd url (tmpInputText env.tmpHex)) env.curlExit)) := by
  simp [handler_fs, h, hc]

/-- `handler` reduction: URL job, curl succeeded but wrote an empty file. -/
theorem handler_fs_url_empty (env : Env) (fs : FS) (job : Job) (url : List Char)
    (h : job.videoUrl = some url) (hc : env.curlExit = 0) (hs : env.downloadSize = 0) :
    handler_fs env fs job
      = (finallyCleanup true (FS.set fs .tmpInput 0), .err .downloadEmpty) := by
  simp [handler_fs, h, hc, hs, FS.set_apply, FS.isfile, FS.getsize]

/-- `handler` reduction: local-path job, the file exists. -/
theorem handler_fs_file (env : Env) (fs : FS) (job : Job) (p : List Char)
    (h1 : job.videoUrl = none) (h2 : job.filePath = some p)
    (h3 : fs.isfile .userFile = true) :
    handler_fs env fs job = pipelineRun env job fs .userFile := by
  simp [handler_fs, h1, h2, h3, finallyCleanup]

/-- `handler` reduction: local-path job, the file does not exist. -/
theorem handler_fs_file_missing (env : Env) (fs : FS) (job : Job) (p : List Char)
    (h1 : job.videoUrl = none) (h2 : job.filePath = some p)
    (h3 : fs.isfile .userFile = false) :
    handler_fs env fs job = (fs, .err (.fileNotFound p)) := by
  simp [handler_fs, h1, h2, h3, finallyCleanup]

/-- `handler` reduction: neither source field given. -/
theorem handler_fs_no_input (env : Env) (fs : FS) (job : Job)
    (h1 : job.videoUrl = none) (h2 : job.filePath = none) :
    handler_fs env fs job = (fs, .err .missingInput) := by
  simp [handler_fs, h1, h2]

/-- Counterexample to C4 as stated: a job that succeeds end to end leaves
the working directory's contents — the source copy and the final video —
in place at job end; nothing deletes `/tmp/<job_id>`. -/
theorem working_directory_not_deleted_cx :
    (handler_fs sampleEnv FS.empty urlJob).2 = .ok
    ∧ ((handler_fs sampleEnv FS.empty urlJob).1).isfile .workSrc = true
    ∧ ((handler_fs sampleEnv FS.empty urlJob).1).isfile .finalVid = true :=
  ⟨rfl, rfl, rfl⟩

/-- C4 amended: whenever the job passes input validation, the working
directory's source copy is still present at job end, on success and on
failure alike — only the downloaded copy's original path is ever removed. -/
theorem working_directory_persists (env : Env) (fs : FS) (job : Job) :
    ((∃ url, job.videoUrl = some url) ∧ env.curlExit = 0 ∧ env.downloadSize ≠ 0
      ∨ job.videoUrl = none ∧ (∃ p, job.filePath = some p)
          ∧ fs.isfile .userFile = true) →
    ((handler_fs env fs job).1).isfile .workSrc = true := by
  rintro (⟨⟨url, hu⟩, hc, hs⟩ | ⟨h1, ⟨p, hp⟩, h3⟩)
  · rw [handler_fs_url env fs job url hu hc hs]
    show (finallyCleanup true _).isfile .workSrc = true
    rw [FS.isfile,
        finallyCleanup_apply_ne true _ FPath.workSrc (fun hh => nomatch hh),
        pipelineRun_fst,
        stageFS_upscale_workSrc env job _ FPath.tmpInput (fun hh => nomatch hh)]
    simp [FS.set_apply]
  · rw [handler_fs_file env fs job p h1 hp h3, FS.isfile, pipelineRun_fst,
        stageFS_upscale_workSrc env job fs FPath.userFile (fun hh => nomatch hh)]
    exact h3

/-- Witness for the amended C4. -/
theorem working_directory_persists_witness :
    ((handler_fs sampleEnv FS.empty urlJob).1).isfile .workSrc = true :=
  working_directory_persists sampleEnv FS.empty urlJob
    (Or.inl ⟨⟨_, rfl⟩, rfl, by decide⟩)

/-- Counterexample to C9 as stated: with a collaborator-provided
`file_path`, a successful job leaves no file at the caller's original path
— `upscale_video` renamed it into the working directory. -/
theorem local_file_consumed_cx :
    (handler_fs sampleEnv fsWithUser fileJob).2 = .ok
    ∧ ((handler_fs sampleEnv fsWithUser fileJob).1).isfile .userFile = false :=
  ⟨rfl, rfl⟩

/-- C9 amended: the cleanup step indeed removes only downloaded copies
(it is guarded on `video_url`), but the job consumes the caller's local
file: it is renamed to `<work_dir>/src.mp4`, where its content persists,
and it no longer exists at its original path after processing. -/
theorem local_file_renamed (env : Env) (fs : FS) (job : Job) (p : List Char)
    (h1 : job.videoUrl = none) (h2 : job.filePath = some p)
    (h3 : fs.isfile .userFile = true) :
    ((handler_fs env fs job).1).isfile .userFile = false
    ∧ (handler_fs env fs job).1 .workSrc = fs .userFile := by
  rw [handler_fs_file env fs job p h1 h2 h3]
  constructor
  · rw [FS.isfile, pipelineRun_fst,
        stageFS_upscale_apply env job fs .userFile .userFile
          (fun hh => nomatch hh) (fun i hh => nomatch hh) (fun i hh => nomatch hh)
          (fun hh => nomatch hh) (fun hh => nomatch hh) (fun hh => nomatch hh)]
    simp
  · rw [pipelineRun_fst,
        stageFS_upscale_workSrc env job fs FPath.userFile (fun hh => nomatch hh)]

/-- Witness for the amended C9. -/
theorem local_file_renamed_witness :
    ((handler_fs sampleEnv fsWithUser fileJob).1).isfile .userFile = false
    ∧ (handler_fs sampleEnv fsWithUser fileJob).1 .workSrc = fsWithUser .userFile :=
  local_file_renamed sampleEnv fsWithUser fileJob "/data/in.mp4".data rfl rfl rfl

/-- C8: a request with no source at all, an empty download, or a
non-existent `file_path` produces an error result and no pipeline work:
the filesystem is returned untouched, except that the empty download
itself is cleaned up by the `finally` block. -/
theorem invalid_input_no_work (env : Env) (fs : FS) (job : Job) :
    (job.videoUrl = none → job.filePath = none →
       handler_fs env fs job = (fs, .err .missingInput))
    ∧ (∀ url, job.videoUrl = some url → env.curlExit = 0 → env.downloadSize = 0 →
       (handler_fs env fs job).2 = .err .downloadEmpty
       ∧ (handler_fs env fs job).1 .tmpInput = none
       ∧ ∀ q, q ≠ .tmpInput → (handler_fs env fs job).1 q = fs q)
    ∧ (∀ p, job.videoUrl = none → job.filePath = some p →
         fs.isfile .userFile = false →
       handler_fs env fs job = (fs, .err (.fileNotFound p))) := by
  refine ⟨?_, ?_, ?_⟩
  · intro h1 h2
    exact handler_fs_no_input env fs job h1 h2
  · intro url hu hc hs
    rw [handler_fs_url_empty env fs job url hu hc hs]
    refine ⟨rfl, ?_, ?_⟩
    · show finallyCleanup true (FS.set fs .tmpInput 0) .tmpInput = none
      simp [finallyCleanup, FS.isfile, FS.set_apply, FS.del_apply]
    · intro q hq
      show finallyCleanup true (FS.set fs .tmpInput 0) q = fs q
      rw [finallyCleanup_apply_ne _ _ _ hq, FS.set_apply]
      simp [hq]
  · intro p h1 h2 h3
    exact handler_fs_file_missing env fs job p h1 h2 h3

/-- Witness for C8 at the no-source input. -/
theorem invalid_input_no_work_witness :
    handler_fs sampleEnv FS.empty noSourceJob = (FS.empty, .err .missingInput) :=
  (invalid_input_no_work sampleEnv FS.empty noSourceJob).1 rfl rfl

/-- On any failing run of `upscale_video` the final video is not written. -/
theorem stageFS_upscale_finalVid_of_fail (env : Env) (job : Job) (fs : FS)
    (inPath : FPath) (hi : inPath ≠ FPath.workSrc) (hfv : inPath ≠ FPath.finalVid)
    (h : ¬ (env.extractExit = 0 ∧ env.encodeExit = 0 ∧ env.remuxExit = 0)) :
    stageFS (upscale_video_fs env job fs inPath) FPath.finalVid = fs FPath.finalVid := by
  have hf : ∀ i, FPath.finalVid ≠ FPath.frame i := fun i hh => nomatch hh
  have hu : ∀ i, FPath.finalVid ≠ FPath.upFrame i := fun i hh => nomatch hh
  have hrn : (FS.rename fs inPath FPath.workSrc) FPath.finalVid = fs FPath.finalVid := by
    rw [FS.rename_apply]
    simp [Ne.symm hfv]
  simp only [upscale_video_fs, if_neg hi]
  split_ifs with h1 h2 h3
  · simp [stageFS, hrn]
  · simp [stageFS, FS.addFrames_apply_ne hf, FS.addUpFrames_apply_ne hu, hrn]
  · simp [stageFS, FS.set_apply, FS.addFrames_apply_ne hf, FS.addUpFrames_apply_ne hu, hrn]
  · exact absurd ⟨by omega, by omega, by omega⟩ h

/-- C6 amended: any non-zero exit of an external stage (download, frame
extraction, encoding, remux) aborts the job, whether the source came from a
URL or from a collaborator-provided local path; the handler returns a
single structured error result — no output payload, no final video written
— whose message embeds the failed command line (identifying the tool and
its stage) and the exit status, but not the tool's stderr text, which
`check_call` never captures. -/
theorem stage_failure_surfaced (env : Env) (fs : FS) (job : Job) :
    (∀ url, job.videoUrl = some url → env.curlExit ≠ 0 →
       (handler_fs env fs job).2
         = .err (.stageFailed (curlCmd url (tmpInputText env.tmpHex)) env.curlExit))
    ∧ ((((∃ url, job.videoUrl = some url) ∧ env.curlExit = 0 ∧ env.downloadSize ≠ 0)
         ∨ (job.videoUrl = none ∧ (∃ p, job.filePath = some p)
             ∧ fs.isfile .userFile = true)) →
       (env.extractExit ≠ 0 →
          (handler_fs env fs job).2
            = .err (.stageFailed
                (extractCmd (srcText env.jobId) (framePatText env.jobId))
                env.extractExit))
       ∧ (env.extractExit = 0 → env.encodeExit ≠ 0 →
          (handler_fs env fs job).2
            = .err (.stageFailed (encodeCmd env.fpsStr (upFramePatText env.jobId)
                      job.crfStr job.presetStr (noAudioText env.jobId))
                env.encodeExit))
       ∧ (env.extractExit = 0 → env.encodeExit = 0 → env.remuxExit ≠ 0 →
          (handler_fs env fs job).2
            = .err (.stageFailed (remuxCmd (noAudioText env.jobId) (srcText env.jobId)
                      (finalText env.jobId)) env.remuxExit)))
    ∧ (∀ r, (handler_fs env fs job).2 = .err r →
         ((handler_fs env fs job).1).isfile .finalVid = fs.isfile .finalVid)
    ∧ (∀ cmd code,
         (pyListRepr cmd) <:+: errorMessage (.stageFailed cmd code)
         ∧ (natDigits code) <:+: errorMessage (.stageFailed cmd code)) := by
  refine ⟨?_, ?_, ?_, ?_⟩
  · intro url h hc
    rw [handler_fs_url_curl_fail env fs job url h hc]
  · intro hE
    have hred : ∃ fsx inP,
        handler_fs env fs job = pipelineRun env job fsx inP := by
      rcases hE with ⟨⟨url, hu⟩, hc, hsz⟩ | ⟨h1, ⟨p, hp⟩, h3⟩
      · refine ⟨FS.set fs .tmpInput env.downloadSize, .tmpInput, ?_⟩
        rw [handler_fs_url env fs job url hu hc hsz]
        have hfc : finallyCleanup true
            (pipelineRun env job (FS.set fs .tmpInput env.downloadSize) .tmpInput).1
            = (pipelineRun env job (FS.set fs .tmpInput env.downloadSize) .tmpInput).1 := by
          funext q
          by_cases hq : q = FPath.tmpInput
          · subst hq
            rw [finallyCleanup]
            split_ifs with hb
            · rw [FS.del_apply, if_pos rfl, pipelineRun_fst,
                  stageFS_upscale_apply env job _ FPath.tmpInput FPath.tmpInput
                    (fun hh => nomatch hh) (fun i hh => nomatch hh)
                    (fun i hh => nomatch hh) (fun hh => nomatch hh)
                    (fun hh => nomatch hh) (fun hh => nomatch hh)]
              simp
            · rfl
          · exact finallyCleanup_apply_ne true _ q hq
        rw [hfc]
      · exact ⟨fs, .userFile, handler_fs_file env fs job p h1 hp h3⟩
    obtain ⟨fsx, inP, heq⟩ := hred
    rw [heq]
    exact ⟨fun hx => pipelineRun_extract_fail env job fsx inP hx,
      fun hx he => pipelineRun_encode_fail env job fsx inP hx he,
      fun hx he hr => pipelineRun_remux_fail env job fsx inP hx he hr⟩
  · intro r hr
    cases hvu : job.videoUrl with
    | some url =>
      by_cases hc : env.curlExit = 0
      · by_cases hsz : env.downloadSize = 0
        · rw [handler_fs_url_empty env fs job url hvu hc hsz]
          show (finallyCleanup true (FS.set fs .tmpInput 0)).isfile .finalVid = _
          rw [FS.isfile,
              finallyCleanup_apply_ne true _ FPath.finalVid (fun hh => nomatch hh),
              FS.set_apply]
          simp [FS.isfile]
        · have hfail : ¬ (env.extractExit = 0 ∧ env.encodeExit = 0
              ∧ env.remuxExit = 0) := by
            rintro ⟨a, b, c⟩
            rw [handler_fs_url env fs job url hvu hc hsz] at hr
            rw [show ((finallyCleanup true
                  (pipelineRun env job (FS.set fs .tmpInput env.downloadSize) .tmpInput).1,
                  (pipelineRun env job (FS.set fs .tmpInput env.downloadSize) .tmpInput).2)).2
                = (pipelineRun env job (FS.set fs .tmpInput env.downloadSize) .tmpInput).2
              from rfl, pipelineRun_ok env job _ _ a b c] at hr
            exact nomatch hr
          rw [handler_fs_url env fs job url hvu hc hsz]
          show (finallyCleanup true _).isfile .finalVid = _
          rw [FS.isfile,
              finallyCleanup_apply_ne true _ FPath.finalVid (fun hh => nomatch hh),
              pipelineRun_fst,
              stageFS_upscale_finalVid_of_fail env job _ FPath.tmpInput
                (fun hh => nomatch hh) (fun hh => nomatch hh) hfail,
              FS.set_apply]
          simp [FS.isfile]
      · rw [handler_fs_url_curl_fail env fs job url hvu hc]
        show (finallyCleanup true (FS.set fs .tmpInput 0)).isfile .finalVid = _
        rw [FS.isfile,
            finallyCleanup_apply_ne true _ FPath.finalVid (fun hh => nomatch hh),
            FS.set_apply]
        simp [FS.isfile]
    | none =>
      cases hfp : job.filePath with
      | none =>
        rw [handler_fs_no_input env fs job hvu hfp]
      | some p =>
        by_cases h3 : fs.isfile .userFile = true
        · have hfail : ¬ (env.extractExit = 0 ∧ env.encodeExit = 0
              ∧ env.remuxExit = 0) := by
            rintro ⟨a, b, c⟩
            rw [handler_fs_file env fs job p hvu hfp h3,
                pipelineRun_ok env job fs .userFile a b c] at hr
            exact nomatch hr
          rw [handler_fs_file env fs job p hvu hfp h3, FS.isfile, pipelineRun_fst,
              stageFS_upscale_finalVid_of_fail env job fs .userFile
                (fun hh => nomatch hh) (fun hh => nomatch hh) hfail]
          rfl
        · have h3f : fs.isfile .userFile = false := by
            revert h3
            cases fs.isfile .userFile <;> simp
          rw [handler_fs_file_missing env fs job p hvu hfp h3f]
  · intro cmd code
    constructor
    · exact ⟨"Upscale failed: Command '".data,
        "' returned non-zero exit status ".data ++ natDigits code ++ ".".data,
        by simp [errorMessage, cpeMessage, List.append_assoc]⟩
    · exact ⟨"Upscale failed: Command '".data ++ pyListRepr cmd
          ++ "' returned non-zero exit status ".data,
        ".".data,
        by simp [errorMessage, cpeMessage, List.append_assoc]⟩

/-- Witness for the amended C6: concrete extraction failures, one on a URL
job and one on a local-path job. -/
theorem stage_failure_surfaced_witness :
    (handler_fs failEnv FS.empty urlJob).2
      = .err (.stageFailed
          (extractCmd (srcText failEnv.jobId) (framePatText failEnv.jobId))
          failEnv.extractExit)
    ∧ (handler_fs failEnv fsWithUser fileJob).2
      = .err (.stageFailed
          (extractCmd (srcText failEnv.jobId) (framePatText failEnv.jobId))
          failEnv.extractExit) :=
  ⟨((stage_failure_surfaced failEnv FS.empty urlJob).2.1
      (Or.inl ⟨⟨_, rfl⟩, rfl, by decide⟩)).1 (by decide),
   ((stage_failure_surfaced failEnv fsWithUser fileJob).2.1
      (Or.inr ⟨rfl, ⟨_, rfl⟩, rfl⟩)).1 (by decide)⟩

set_option maxRecDepth 4096 in
/-- Counterexample to C6 as stated: extraction fails with a diagnostic on
stderr, but the user-visible message — built from the command line and exit
status only — does not contain the tool's error text. -/
theorem stage_error_text_missing_cx :
    (handler_fs failEnv FS.empty urlJob).2
      = .err (.stageFailed
          (extractCmd (srcText failEnv.jobId) (framePatText failEnv.jobId)) 1)
    ∧ ¬ (failEnv.stderrText <:+:
          errorMessage (.stageFailed
            (extractCmd (srcText failEnv.jobId) (framePatText failEnv.jobId)) 1)) := by
  refine ⟨rfl, ?_⟩
  decide

/-- C7: the remux command `upscale_video` builds is exactly the
copy-copy-shortest form, and under the modelled semantics it copies the new
video stream and the original's audio stream verbatim (no re-encode),
truncates both to the shorter of the two, and a source with no audio track
yields an output with no audio track and no error. -/
theorem remux_copies_audio (noAudio src finalV : List Char) (A B : MediaFile) :
    runRemux (remuxCmd noAudio src finalV) A B = some (remuxSem A B)
    ∧ (remuxSem A B).video.map AVStream.content = A.video.map AVStream.content
    ∧ (remuxSem A B).audio.map AVStream.content = B.audio.map AVStream.content
    ∧ (B.audio = none → (remuxSem A B).audio = none)
    ∧ (∀ sv sa, A.video = some sv → B.audio = some sa →
         (remuxSem A B).video.map AVStream.dur = some (min sv.dur sa.dur)
         ∧ (remuxSem A B).audio.map AVStream.dur = some (min sv.dur sa.dur)) := by
  refine ⟨?_, ?_, ?_, ?_, ?_⟩
  · simp [runRemux, remuxCmd, parseRemuxCmd]
  · cases hA : A.video <;> simp [remuxSem, hA]
  · cases hB : B.audio <;> simp [remuxSem, hB]
  · intro hB
    simp [remuxSem, hB]
  · intro sv sa hA hB
    constructor
    · simp [remuxSem, remuxDuration, hA, hB,
            min_eq_right (min_le_left sv.dur sa.dur)]
    · simp [remuxSem, remuxDuration, hA, hB,
            min_eq_right (min_le_right sv.dur sa.dur)]

/-- Witness for C7: remuxing against a source with no audio track. -/
theorem remux_copies_audio_witness :
    runRemux (remuxCmd "a".data "b".data "c".data)
        { video := some ⟨1, 10⟩, audio := none }
        { video := some ⟨2, 8⟩, audio := none }
      = some (remuxSem { video := some ⟨1, 10⟩, audio := none }
               { video := some ⟨2, 8⟩, audio := none })
    ∧ (remuxSem { video := some ⟨1, 10⟩, audio := none }
        { video := some ⟨2, 8⟩, audio := none }).audio = none :=
  ⟨(remux_copies_audio "a".data "b".data "c".data _ _).1,
   (remux_copies_audio "a".data "b".data "c".data _ _).2.2.2.1 rfl⟩

end Upscale
